import Mathlib

/-!
# Pildiraam — verification of the sync engine and the progressive loader

A shallow embedding of the Pildiraam photo-frame core, translated from the
TypeScript backend (`cacheManager.ts`, `icloudService.ts`) and the client
slideshow (`public/slideshow.js`), together with theorems settling the
specification's claims about it.

Modelling conventions:
* JS numbers that the code only ever uses as integers (timestamps in
  milliseconds, counters, indices) are `Int`/`Nat`; the one fractional
  quantity (`ageMinutes`, a float division) is modelled exactly over `ℚ`.
* Node's `crypto.createHash('sha256').digest('hex')` is embedded as a full
  SHA-256 implementation over `Nat` words (FIPS 180-4), with the hex digest
  rendered lowercase exactly as Node renders it.
* The disk store of one album directory is a list of filenames present;
  `fs.access` success is membership.
* Remote calls (`getImages`, `axios.get`) are oracles passed as arguments:
  the album fetch is an optional response, and per-URL image download
  outcome (after `downloadImage`'s internal retries) is a `String → Bool`.
-/

namespace Pildiraam

/-! ## SHA-256 (the semantics of Node's `crypto.createHash('sha256')`) -/

/-- Truncate to a 32-bit word. -/
def mask32 (n : Nat) : Nat := n % 2 ^ 32

/-- Right-rotation of a 32-bit word. -/
def rotr (n x : Nat) : Nat := mask32 ((x >>> n) ||| (x <<< (32 - n)))

/-- FIPS 180-4 `Ch`: choose bits of `y` or `z` according to `x`. -/
def sha2Ch (x y z : Nat) : Nat := (x &&& y) ^^^ ((x ^^^ 0xffffffff) &&& z)

/-- FIPS 180-4 `Maj`: bitwise majority. -/
def sha2Maj (x y z : Nat) : Nat := (x &&& y) ^^^ (x &&& z) ^^^ (y &&& z)

/-- FIPS 180-4 `Σ₀`. -/
def bigSigma0 (x : Nat) : Nat := rotr 2 x ^^^ rotr 13 x ^^^ rotr 22 x

/-- FIPS 180-4 `Σ₁`. -/
def bigSigma1 (x : Nat) : Nat := rotr 6 x ^^^ rotr 11 x ^^^ rotr 25 x

/-- FIPS 180-4 `σ₀`. -/
def smallSigma0 (x : Nat) : Nat := rotr 7 x ^^^ rotr 18 x ^^^ (x >>> 3)

/-- FIPS 180-4 `σ₁`. -/
def smallSigma1 (x : Nat) : Nat := rotr 17 x ^^^ rotr 19 x ^^^ (x >>> 10)

/-- The 64 SHA-256 round constants (FIPS 180-4 §4.2.2, here in decimal). -/
def sha2K : List Nat :=
  [1116352408, 1899447441, 3049323471, 3921009573, 961987163, 1508970993,
   2453635748, 2870763221, 3624381080, 310598401, 607225278, 1426881987,
   1925078388, 2162078206, 2614888103, 3248222580, 3835390401, 4022224774,
   264347078, 604807628, 770255983, 1249150122, 1555081692, 1996064986,
   2554220882, 2821834349, 2952996808, 3210313671, 3336571891, 3584528711,
   113926993, 338241895, 666307205, 773529912, 1294757372, 1396182291,
   1695183700, 1986661051, 2177026350, 2456956037, 2730485921, 2820302411,
   3259730800, 3345764771, 3516065817, 3600352804, 4094571909, 275423344,
   430227734, 506948616, 659060556, 883997877, 958139571, 1322822218,
   1537002063, 1747873779, 1955562222, 2024104815, 2227730452, 2361852424,
   2428436474, 2756734187, 3204031479, 3329325298]

/-- The SHA-256 initial hash value (FIPS 180-4 §5.3.3, in decimal). -/
def sha2H0 : List Nat :=
  [1779033703, 3144134277, 1013904242, 2773480762,
   1359893119, 2600822924, 528734635, 1541459225]

/-- Big-endian byte rendering of `n`, `count` bytes. -/
def natToBytesBE (count n : Nat) : List Nat :=
  (List.range count).map (fun i => (n >>> (8 * (count - 1 - i))) % 256)

/-- SHA-256 padding: append `0x80`, zeros, and the 64-bit bit length,
reaching a multiple of 64 bytes. -/
def sha2Pad (msg : List Nat) : List Nat :=
  let len := msg.length
  let zeros := (64 - ((len + 9) % 64)) % 64
  msg ++ [0x80] ++ List.replicate zeros 0 ++ natToBytesBE 8 (8 * len)

/-- Split a byte list into 64-byte blocks (fuel-driven so it reduces). -/
def sha2Blocks : Nat → List Nat → List (List Nat)
  | 0, _ => []
  | _ + 1, [] => []
  | fuel + 1, l => l.take 64 :: sha2Blocks fuel (l.drop 64)

/-- Parse a 64-byte block as 16 big-endian 32-bit words. -/
def sha2Words (block : List Nat) : List Nat :=
  (List.range 16).map (fun i =>
    (block.getD (4 * i) 0 <<< 24) ||| (block.getD (4 * i + 1) 0 <<< 16) |||
    (block.getD (4 * i + 2) 0 <<< 8) ||| block.getD (4 * i + 3) 0)

/-- Extend the 16-word schedule by `n` further words. -/
def sha2Extend : Nat → List Nat → List Nat
  | 0, ws => ws
  | n + 1, ws =>
    let t := ws.length
    let wNew := mask32 (smallSigma1 (ws.getD (t - 2) 0) + ws.getD (t - 7) 0 +
      smallSigma0 (ws.getD (t - 15) 0) + ws.getD (t - 16) 0)
    sha2Extend n (ws ++ [wNew])

/-- One SHA-256 compression round: the state is the 8 working words. -/
def sha2Round (st : List Nat) (kw : Nat × Nat) : List Nat :=
  let a := st.getD 0 0
  let b := st.getD 1 0
  let c := st.getD 2 0
  let d := st.getD 3 0
  let e := st.getD 4 0
  let f := st.getD 5 0
  let g := st.getD 6 0
  let h := st.getD 7 0
  let t1 := mask32 (h + bigSigma1 e + sha2Ch e f g + kw.1 + kw.2)
  let t2 := mask32 (bigSigma0 a + sha2Maj a b c)
  [mask32 (t1 + t2), a, b, c, mask32 (d + t1), e, f, g]

/-- Compress one block into the running hash value. -/
def sha2Compress (hs : List Nat) (block : List Nat) : List Nat :=
  let ws := sha2Extend 48 (sha2Words block)
  let st := (sha2K.zip ws).foldl sha2Round hs
  hs.zipWith (fun x y => mask32 (x + y)) st

/-- SHA-256 of a byte list, as 8 32-bit words. -/
def sha256 (msg : List Nat) : List Nat :=
  let padded := sha2Pad msg
  (sha2Blocks padded.length padded).foldl sha2Compress sha2H0

/-- A hex nibble, lowercase, as Node's `digest('hex')` renders it. -/
def hexChar (n : Nat) : Char :=
  if n < 10 then Char.ofNat (48 + n) else Char.ofNat (87 + n)

/-- A 32-bit word as 8 lowercase hex characters, most significant first. -/
def wordToHex (w : Nat) : List Char :=
  (List.range 8).map (fun i => hexChar ((w >>> (4 * (7 - i))) % 16))

/-- UTF-8 encoding of one character (what `hash.update(string)` hashes). -/
def utf8EncodeCharBytes (c : Char) : List Nat :=
  let n := c.toNat
  if n < 0x80 then [n]
  else if n < 0x800 then [0xc0 ||| (n >>> 6), 0x80 ||| (n &&& 0x3f)]
  else if n < 0x10000 then
    [0xe0 ||| (n >>> 12), 0x80 ||| ((n >>> 6) &&& 0x3f), 0x80 ||| (n &&& 0x3f)]
  else
    [0xf0 ||| (n >>> 18), 0x80 ||| ((n >>> 12) &&& 0x3f),
     0x80 ||| ((n >>> 6) &&& 0x3f), 0x80 ||| (n &&& 0x3f)]

/-- UTF-8 bytes of a string. -/
def utf8Bytes (s : String) : List Nat :=
  (s.data.map utf8EncodeCharBytes).flatten

/-- `crypto.createHash('sha256').update(s).digest('hex')`. -/
def sha256Hex (s : String) : String :=
  String.mk (((sha256 (utf8Bytes s)).map wordToHex).flatten)

/-- `imageUrlToHash` (cacheManager.ts): SHA-256 hex of the URL plus `.jpg`. -/
def imageUrlToHash (url : String) : String :=
  sha256Hex url ++ ".jpg"

/-- One character of the regex class `[a-f0-9]`. -/
def isHexDigit (c : Char) : Bool :=
  (('a' ≤ c) && (c ≤ 'f')) || (('0' ≤ c) && (c ≤ '9'))

/-- `isValidImageFile` (cacheManager.ts): the regex test
`^[a-f0-9]{64}\.jpg` anchored at both ends — 64 hex characters then `.jpg`. -/
def isValidImageFile (filename : String) : Bool :=
  let cs := filename.data
  decide (cs.length = 68) && (cs.take 64).all isHexDigit &&
    decide (cs.drop 64 = ['.', 'j', 'p', 'g'])

/-! ## Data model (types.ts) -/

/-- `ImageDerivative` (types.ts), plus the key under which it sits in the
`derivatives` object (the iCloud height string); the TS object is modelled
as an association list in insertion order. -/
structure ImageDerivative where
  key : String
  checksum : String
  fileSize : Nat
  width : Nat
  height : Nat
  url : String
deriving DecidableEq

/-- `AlbumImage` (types.ts). `url` is the canonical source locator. -/
structure AlbumImage where
  id : String
  url : String
  derivatives : List ImageDerivative
  dateCreated : Option String := none
  caption : Option String := none
  title : Option String := none
deriving DecidableEq

/-- `AlbumMetadata` (types.ts). -/
structure AlbumMetadata where
  streamName : String
  userFirstName : String
  userLastName : String
  streamCtag : String
  itemsReturned : Nat
deriving DecidableEq

/-- `AlbumData` (types.ts); `lastSynced` is epoch milliseconds
(`Date.getTime()`). -/
structure AlbumData where
  metadata : AlbumMetadata
  photos : List AlbumImage
  lastSynced : Int
deriving DecidableEq

/-! ## Cache manager (cacheManager.ts)

One album's directory on disk is modelled as the list of filenames present
(`store`); `fs.access` success is membership. `loadAlbumMetadata` reads the
disk, so the cached snapshot enters the model as an `Option AlbumData`
oracle (a missing or unparseable `metadata.json` is `none`, exactly as the
source returns `null` in both cases). -/

/-- `imageExists` (cacheManager.ts): `fs.access` on the album directory. -/
def imageExists (store : List String) (filename : String) : Bool :=
  store.contains filename

/-- `isAlbumCacheStale` (cacheManager.ts): no snapshot is stale; otherwise
`ageMinutes = (now − lastSynced) / (1000*60)` (exact JS float division,
modelled over `ℚ`) compared strictly against the threshold
(default 1440 minutes = 24 hours). -/
def isAlbumCacheStale (cached : Option AlbumData) (now : Int)
    (stalenessMinutes : ℚ := 1440) : Bool :=
  match cached with
  | none => true
  | some albumData =>
    let ageMinutes : ℚ := (now - albumData.lastSynced : ℤ) / (1000 * 60)
    decide (ageMinutes > stalenessMinutes)

/-- `cacheImage` (cacheManager.ts): derive the filename from the URL and
write it unless it already exists (the `fs.access` skip). Returns the new
directory contents and the filename written, if any. -/
def cacheImage (store : List String) (imageUrl : String) :
    List String × Option String :=
  let filename := imageUrlToHash imageUrl
  if filename ∈ store then (store, none)
  else (store ++ [filename], some filename)

/-! ## iCloud service (icloudService.ts) -/

/-- JS `parseInt(s, 10)` restricted to what the code feeds it (derivative
keys): the longest leading run of decimal digits, `none` when there is
none (NaN). -/
def jsParseInt (s : String) : Option Nat :=
  let digits := s.data.takeWhile (fun c => c.isDigit)
  if digits.isEmpty then none
  else some (digits.foldl (fun acc c => 10 * acc + (c.toNat - 48)) 0)

/-- The height used to rank a derivative:
`parseInt(key, 10) || derivative.height || 0` — JS `||` takes the next
operand when the previous is falsy (NaN or 0). -/
def derivativeRankHeight (d : ImageDerivative) : Nat :=
  match jsParseInt d.key with
  | some (n + 1) => n + 1
  | _ => d.height

/-- `selectBestImageUrl` (icloudService.ts): the main `url` when truthy
(non-empty), otherwise the first-listed derivative of maximal rank height
among those with a non-empty URL (the source stable-sorts descending by
height and takes the head). -/
def selectBestImageUrl (image : AlbumImage) : Option String :=
  if image.url ≠ "" then some image.url
  else
    let cands := image.derivatives.filter (fun d => d.url ≠ "")
    (cands.foldl (fun acc d =>
      match acc with
      | none => some d
      | some c =>
        if derivativeRankHeight d > derivativeRankHeight c then some d
        else some c) none).map (fun d => d.url)

/-- The loop of `determineImagesToDownload`: push the photo when its URL is
not cached, else push it only when the blob is missing from disk. -/
def determineGo (cachedUrls store : List String) :
    List AlbumImage → List AlbumImage
  | [] => []
  | photo :: rest =>
    if photo.url ∈ cachedUrls then
      if imageExists store (imageUrlToHash photo.url) then
        determineGo cachedUrls store rest
      else photo :: determineGo cachedUrls store rest
    else photo :: determineGo cachedUrls store rest

/-- `determineImagesToDownload` (icloudService.ts): walk the fresh listing;
include a photo when its `url` is not among the cached photos' URLs, or
when it is but the blob named by `imageUrlToHash` is absent from disk. -/
def determineImagesToDownload (newPhotos cachedPhotos : List AlbumImage)
    (store : List String) : List AlbumImage :=
  let cachedUrls := cachedPhotos.map (fun p => p.url)
  determineGo cachedUrls store newPhotos

/-- The observable outcome of one `downloadAndCacheImages` batch: the album
directory afterwards, the URLs passed to `downloadImage` in call order, and
the filenames actually written (the skip-if-exists check honoured). -/
structure DownloadBatchResult where
  store : List String
  fetched : List String
  written : List String
deriving DecidableEq

/-- `downloadAndCacheImages` (icloudService.ts): strictly sequential; each
item resolves its best URL (no URL counts as a failure), calls
`downloadImage` (the `download` oracle is its success after the internal
retry/backoff), and on success caches the blob. Any per-item failure —
download or store — is caught inside the loop and the batch continues. -/
def downloadAndCacheImages (download : String → Bool) (store : List String) :
    List AlbumImage → DownloadBatchResult
  | [] => { store := store, fetched := [], written := [] }
  | image :: rest =>
    match selectBestImageUrl image with
    | none => downloadAndCacheImages download store rest
    | some imageUrl =>
      if download imageUrl then
        let c := cacheImage store imageUrl
        let r := downloadAndCacheImages download c.1 rest
        { r with fetched := imageUrl :: r.fetched,
                 written := c.2.toList ++ r.written }
      else
        let r := downloadAndCacheImages download store rest
        { r with fetched := imageUrl :: r.fetched }

/-- `fetchAlbumFromiCloud` (icloudService.ts): an optional parsed response
(any error, timeout or malformed response is `none`, as the source returns
`null` in all those cases); on success the snapshot's `lastSynced` is
`new Date()` — the fetch time. -/
def fetchAlbumFromiCloud (resp : Option (AlbumMetadata × List AlbumImage))
    (fetchTime : Int) : Option AlbumData :=
  match resp with
  | none => none
  | some (m, ps) => some { metadata := m, photos := ps, lastSynced := fetchTime }

/-- A store I/O error thrown by `fs` (disk full, permission denied). -/
inductive StoreError
  | diskFull
  | permissionDenied
deriving DecidableEq

/-- What one `syncAlbumWithCache` call did. -/
structure SyncResult where
  result : Option AlbumData
  committed : Option AlbumData
  store : List String
  fetchedUrls : List String
deriving DecidableEq

/-- The body of `syncAlbumWithCache` (icloudService.ts) up to but not
including its top-level `catch`: staleness check, fresh-cache early return
(`updateAlbumAccessTime` rewrites the same snapshot and swallows its own
errors, so it is invisible here), iCloud fetch with stale-cache fallback,
delta resolution, sequential download batch, and the metadata save —
whose store error (`saveErr`) is rethrown by `saveAlbumMetadata` and
propagates out of the body uncaught. -/
def syncAlbumBody (cached : Option AlbumData) (now fetchTime : Int)
    (resp : Option (AlbumMetadata × List AlbumImage))
    (download : String → Bool) (saveErr : Option StoreError)
    (store : List String) : Except StoreError SyncResult :=
  let isStale := isAlbumCacheStale cached now
  if !isStale && cached.isSome then
    .ok { result := cached, committed := none, store := store, fetchedUrls := [] }
  else
    match fetchAlbumFromiCloud resp fetchTime with
    | none =>
      -- iCloud fetch failed: return the stale cache when present, else null.
      .ok { result := cached, committed := none, store := store, fetchedUrls := [] }
    | some albumData =>
      let imagesToDownload := determineImagesToDownload albumData.photos
        ((cached.map (fun d => d.photos)).getD []) store
      let batch :=
        if imagesToDownload.length > 0 then
          downloadAndCacheImages download store imagesToDownload
        else { store := store, fetched := [], written := [] }
      match saveErr with
      | some e => .error e
      | none =>
        .ok { result := some albumData, committed := some albumData,
              store := batch.store, fetchedUrls := batch.fetched }

/-- `syncAlbumWithCache` (icloudService.ts): the body wrapped in the
function's top-level `try`/`catch`, which logs any error and returns
`null`. -/
def syncAlbumWithCache (cached : Option AlbumData) (now fetchTime : Int)
    (resp : Option (AlbumMetadata × List AlbumImage))
    (download : String → Bool) (saveErr : Option StoreError)
    (store : List String) : SyncResult :=
  match syncAlbumBody cached now fetchTime resp download saveErr store with
  | .ok r => r
  | .error _ =>
    { result := none, committed := none, store := store, fetchedUrls := [] }

/-! ## Progressive loader (public/slideshow.js)

The client session state relevant to loading: the FIFO `imageLoadQueue`, the
code's `loadingCount` bookkeeping counter, the per-index retry map, the
permanently-failed set, the `imageElements` cache and the DOM children —
plus `inFlight`, the observable set of image loads started (`img.src` set)
and not yet completed, which the spec's bounded-concurrency property is
about. Indices stand for the slide elements (`slide-<i>`). -/

/-- `state.MAX_CONCURRENT_LOADS` (slideshow.js). -/
def MAX_CONCURRENT_LOADS : Nat := 4

/-- `state.MAX_IMAGE_RETRIES` (slideshow.js). -/
def MAX_IMAGE_RETRIES : Nat := 1

/-- `PRELOAD_WINDOW` (slideshow.js). -/
def PRELOAD_WINDOW : Nat := 20

/-- The loader-relevant part of the slideshow session state. -/
structure LoaderState where
  imageLoadQueue : List Nat
  loadingCount : Nat
  imageRetryMap : List (Nat × Nat)
  failedImages : List Nat
  imageElements : List Nat
  dom : List Nat
  inFlight : List Nat
deriving DecidableEq

/-- The fresh session state. -/
def initLoaderState : LoaderState :=
  { imageLoadQueue := [], loadingCount := 0, imageRetryMap := [],
    failedImages := [], imageElements := [], dom := [], inFlight := [] }

/-- `state.imageRetryMap[index] || 0`. -/
def retryCountOf (m : List (Nat × Nat)) (i : Nat) : Nat :=
  (m.lookup i).getD 0

/-- `state.imageRetryMap[index] = v`. -/
def setRetry (m : List (Nat × Nat)) (i v : Nat) : List (Nat × Nat) :=
  (i, v) :: m.filter (fun p => p.1 ≠ i)

/-- `delete state.imageRetryMap[index]`. -/
def delRetry (m : List (Nat × Nat)) (i : Nat) : List (Nat × Nat) :=
  m.filter (fun p => p.1 ≠ i)

/-- The `while` loop of `processImageLoadQueue`: as long as the counter is
under `MAX_CONCURRENT_LOADS` and the queue is non-empty, shift the next
item, bump the counter, and set `img.src` — starting a load. Returns the
remaining queue, the counter, and the in-flight list. -/
def drainQueue : List Nat → Nat → List Nat → List Nat × Nat × List Nat
  | [], lc, fl => ([], lc, fl)
  | i :: rest, lc, fl =>
    if lc < MAX_CONCURRENT_LOADS then drainQueue rest (lc + 1) (fl ++ [i])
    else (i :: rest, lc, fl)

/-- `processImageLoadQueue` (slideshow.js). Every call site in the file
passes zero arguments, so the guard
`if (state.loadingCount > 0 && arguments.length === 0)` decrements the
counter on every invocation with a positive counter — also when the caller
is `queueImageLoad`, not a load completion. -/
def processImageLoadQueue (s : LoaderState) : LoaderState :=
  let lc := if s.loadingCount > 0 then s.loadingCount - 1 else s.loadingCount
  match drainQueue s.imageLoadQueue lc s.inFlight with
  | (q, lc', fl) =>
    { s with imageLoadQueue := q, loadingCount := lc', inFlight := fl }

/-- `queueImageLoad` (slideshow.js): push onto the FIFO queue, then process
the queue (another zero-argument call). -/
def queueImageLoad (i : Nat) (s : LoaderState) : LoaderState :=
  processImageLoadQueue { s with imageLoadQueue := s.imageLoadQueue ++ [i] }

/-- `getOrCreateSlideElement` (slideshow.js): if the element is already in
the DOM, return it; otherwise create it, append it to the DOM and the
`imageElements` cache, and queue its image for pooled loading. No check of
`state.failedImages` happens here. -/
def getOrCreateSlideElement (i : Nat) (s : LoaderState) : LoaderState :=
  if i ∈ s.dom then s
  else queueImageLoad i
    { s with dom := s.dom ++ [i], imageElements := s.imageElements ++ [i] }

/-- The `img.onerror` handler (slideshow.js): skip if already permanently
failed; else retry once via `queueImageLoad`; else mark failed, remove the
slide from the DOM and from `imageElements`. The trailing
`processImageLoadQueue()` at the end of the handler runs in the non-skip
branches. -/
def onLoadError (i : Nat) (s : LoaderState) : LoaderState :=
  if i ∈ s.failedImages then processImageLoadQueue s
  else
    let rc := retryCountOf s.imageRetryMap i
    if rc < MAX_IMAGE_RETRIES then
      processImageLoadQueue
        (queueImageLoad i { s with imageRetryMap := setRetry s.imageRetryMap i (rc + 1) })
    else
      processImageLoadQueue
        { s with failedImages := i :: s.failedImages,
                 dom := s.dom.erase i,
                 imageElements := s.imageElements.erase i }

/-- The `img.onload` handler (slideshow.js): clear the retry count and
process the queue. -/
def onLoadSuccess (i : Nat) (s : LoaderState) : LoaderState :=
  processImageLoadQueue { s with imageRetryMap := delRetry s.imageRetryMap i }

/-- `preloadNearbyImages` (slideshow.js): ensure elements exist for
`[currentIndex − 5, min (len − 1) (currentIndex + PRELOAD_WINDOW)]`, then
evict cached elements outside `[start − 5, end + 5]` from the DOM and the
cache. -/
def preloadNearbyImages (cur len : Nat) (s : LoaderState) : LoaderState :=
  let start : Nat := cur - 5
  let stop : Int := min ((len : Int) - 1) ((cur : Int) + PRELOAD_WINDOW)
  let s1 :=
    if (start : Int) ≤ stop then
      (List.range' start (stop.toNat + 1 - start)).foldl
        (fun s i => getOrCreateSlideElement i s) s
    else s
  let toRemove := s1.imageElements.filter
    (fun i : Nat => decide ((i : Int) < (start : Int) - 5) || decide ((i : Int) > stop + 5))
  toRemove.foldl
    (fun s i => { s with dom := s.dom.erase i, imageElements := s.imageElements.erase i })
    s1

/-- The externally visible loader events of a session: element creation
(from `showSlide`/`preloadNearbyImages`), load completions from the
browser, and preload passes. A completion is only deliverable for a load
actually in flight. -/
inductive LoaderEvent
  | create (i : Nat)
  | success (i : Nat)
  | failure (i : Nat)
  | preload (cur len : Nat)

/-- One step of the session: dispatch an event against the state. A
completing load leaves `inFlight` exactly when its handler runs. -/
def loaderStep (s : LoaderState) : LoaderEvent → LoaderState
  | .create i => getOrCreateSlideElement i s
  | .success i =>
    if i ∈ s.inFlight then onLoadSuccess i { s with inFlight := s.inFlight.erase i }
    else s
  | .failure i =>
    if i ∈ s.inFlight then onLoadError i { s with inFlight := s.inFlight.erase i }
    else s
  | .preload cur len => preloadNearbyImages cur len s

/-- Run a session from the fresh state. -/
def runLoader (evs : List LoaderEvent) : LoaderState :=
  evs.foldl loaderStep initLoaderState

/-! ## Windowed shuffle (public/slideshow.js) -/

/-- Wrap an integer to JS `| 0` semantics (signed 32-bit). -/
def toInt32 (n : Int) : Int := (n + 2 ^ 31) % 2 ^ 32 - 2 ^ 31

/-- `hashCode` (slideshow.js): the 31-based string hash with 32-bit
wrapping (`(hash << 5) - hash + chr; hash |= 0`), absolute value taken. -/
def hashCode (s : String) : Nat :=
  (s.data.foldl (fun h c => toInt32 (toInt32 (h * 32) - h + c.toNat)) 0).natAbs

/-- One step of `seededRandom`'s linear congruential generator:
`seed = (seed * 9301 + 49297) % 233280`. -/
def lcgNext (seed : Nat) : Nat := (seed * 9301 + 49297) % 233280

/-- Swap two positions of a list, total: out-of-range indices leave the
list unchanged (the shuffle only ever uses in-range indices). -/
def swapList (l : List α) (i j : Nat) : List α :=
  match l[i]?, l[j]? with
  | some a, some b => (l.set i b).set j a
  | _, _ => l

/-- The Fisher–Yates loop of `shuffleImages` (slideshow.js), descending
from index `i` to 1: draw `j = Math.floor(seededRandom() * (i + 1))`
(exact over `Nat`: the freshly advanced seed times `i + 1`, divided by
233280) and swap positions `i` and `j`. -/
def shuffleGo : List α → Nat → Nat → List α
  | l, _, 0 => l
  | l, seed, i + 1 =>
    let seed' := lcgNext seed
    let j := seed' * (i + 2) / 233280
    shuffleGo (swapList l (i + 1) j) seed' i

/-- `shuffleImages` (slideshow.js): Fisher–Yates over `state.images` with
the session-derived seed (`hashCode(token + Date.now())`). -/
def shuffleImages (seed : Nat) (images : List α) : List α :=
  shuffleGo images seed (images.length - 1)

/-- The seed derivation of `shuffleImages`: `hashCode(state.token +
Date.now())`, with the timestamp already coerced to its decimal string. -/
def shuffleSeed (token timeStr : String) : Nat :=
  hashCode (token ++ timeStr)

/-! ## Lemmas: the Fisher–Yates shuffle permutes -/

/-- Replacing the element `b` at position `j` by `a` while consing `b` in
front permutes consing `a` in front. -/
theorem cons_set_perm (a : α) :
    ∀ (l : List α) (j : Nat) (b : α), l[j]? = some b →
      (b :: l.set j a).Perm (a :: l) := by
  intro l
  induction l with
  | nil => intro j b h; simp at h
  | cons x t ih =>
    intro j b h
    cases j with
    | zero =>
      rw [List.getElem?_cons_zero, Option.some.injEq] at h
      subst h
      exact List.Perm.swap a x t
    | succ k =>
      rw [List.getElem?_cons_succ] at h
      show (b :: x :: t.set k a).Perm (a :: x :: t)
      have s1 : (b :: x :: t.set k a).Perm (x :: b :: t.set k a) :=
        List.Perm.swap x b _
      have s2 : (x :: b :: t.set k a).Perm (x :: a :: t) := (ih k b h).cons x
      have s3 : (x :: a :: t).Perm (a :: x :: t) := List.Perm.swap a x t
      exact (s1.trans s2).trans s3

/-- A position swap is a permutation. -/
theorem swapList_perm : ∀ (l : List α) (i j : Nat), (swapList l i j).Perm l := by
  intro l
  induction l with
  | nil => intro i j; cases i <;> cases j <;> exact List.Perm.refl _
  | cons x t ih =>
    intro i j
    cases i with
    | zero =>
      cases j with
      | zero => simp [swapList]
      | succ m =>
        cases h : t[m]? with
        | none => simp [swapList, h]
        | some b =>
          have heq : swapList (x :: t) 0 (m + 1) = b :: t.set m x := by
            simp [swapList, h]
          rw [heq]
          exact cons_set_perm x t m b h
    | succ k =>
      cases j with
      | zero =>
        cases h : t[k]? with
        | none => simp [swapList, h]
        | some a =>
          have heq : swapList (x :: t) (k + 1) 0 = a :: t.set k x := by
            simp [swapList, h]
          rw [heq]
          exact cons_set_perm x t k a h
      | succ m =>
        cases ha : t[k]? with
        | none => simp [swapList, ha]
        | some a =>
          cases hb : t[m]? with
          | none => simp [swapList, ha, hb]
          | some b =>
            have h1 : swapList (x :: t) (k + 1) (m + 1) = x :: (t.set k b).set m a := by
              simp [swapList, ha, hb]
            have h2 : swapList t k m = (t.set k b).set m a := by
              simp [swapList, ha, hb]
            rw [h1, ← h2]
            exact (ih k m).cons x

/-- Every pass of the Fisher–Yates loop permutes. -/
theorem shuffleGo_perm :
    ∀ (fuel : Nat) (l : List α) (seed : Nat), (shuffleGo l seed fuel).Perm l := by
  intro fuel
  induction fuel with
  | zero => intro l seed; exact List.Perm.refl l
  | succ i ih =>
    intro l seed
    rw [shuffleGo]
    exact (ih _ _).trans (swapList_perm l (i + 1) _)

/-! ## Lemmas: delta resolution and the download batch -/

/-- The delta loop is a filter: keep exactly the photos whose URL is not
cached, or whose blob is missing from the store. -/
theorem determineGo_eq_filter (cachedUrls store : List String) :
    ∀ photos : List AlbumImage,
      determineGo cachedUrls store photos =
        photos.filter (fun p =>
          !(decide (p.url ∈ cachedUrls)) ||
          !(imageExists store (imageUrlToHash p.url))) := by
  intro photos
  induction photos with
  | nil => rfl
  | cons p rest ih =>
    rw [determineGo, List.filter_cons]
    by_cases hmem : p.url ∈ cachedUrls
    · by_cases hex : imageExists store (imageUrlToHash p.url) = true
      · simp [hmem, hex, ih]
      · simp [hmem, hex, ih]
    · simp [hmem, ih]

/-- Resolving a listing against itself keeps exactly the blob-missing
photos: the URL-level check never fires, only the disk probe does. -/
theorem determineImagesToDownload_self (ps : List AlbumImage) (store : List String) :
    determineImagesToDownload ps ps store =
      ps.filter (fun p => !(imageExists store (imageUrlToHash p.url))) := by
  rw [determineImagesToDownload, determineGo_eq_filter]
  apply List.filter_congr
  intro p hp
  have hmem : p.url ∈ ps.map (fun q => q.url) := List.mem_map_of_mem _ hp
  simp [hmem]

/-- The batch attempts one `downloadImage` per item with a usable URL, in
listing order, regardless of success. -/
theorem downloadAndCacheImages_fetched (download : String → Bool) :
    ∀ (images : List AlbumImage) (store : List String),
      (downloadAndCacheImages download store images).fetched =
        images.filterMap selectBestImageUrl := by
  intro images
  induction images with
  | nil => intro store; rfl
  | cons img rest ih =>
    intro store
    rw [List.filterMap_cons]
    cases h : selectBestImageUrl img with
    | none => simp only [downloadAndCacheImages, h]; exact ih store
    | some u =>
      by_cases hd : download u = true
      · simp only [downloadAndCacheImages, h, hd, if_pos]
        rw [ih]
      · simp only [downloadAndCacheImages, h, hd]
        rw [if_neg (by simp [hd]), ih]

/-- The filenames a batch writes are fresh: none was already on disk and
none is written twice (`cacheImage` skips existing files). -/
theorem downloadAndCacheImages_written_fresh (download : String → Bool) :
    ∀ (images : List AlbumImage) (store : List String),
      (downloadAndCacheImages download store images).written.Nodup ∧
      ∀ f ∈ (downloadAndCacheImages download store images).written, f ∉ store := by
  intro images
  induction images with
  | nil =>
    intro store
    refine ⟨List.nodup_nil, ?_⟩
    intro f hf
    simp [downloadAndCacheImages] at hf
  | cons img rest ih =>
    intro store
    cases h : selectBestImageUrl img with
    | none => simpa only [downloadAndCacheImages, h] using ih store
    | some u =>
      by_cases hd : download u = true
      · by_cases hc : imageUrlToHash u ∈ store
        · have hci : cacheImage store u = (store, none) := by
            simp [cacheImage, hc]
          have := ih store
          simp only [downloadAndCacheImages, h, hd, if_pos, hci]
          simpa using this
        · have hci : cacheImage store u =
              (store ++ [imageUrlToHash u], some (imageUrlToHash u)) := by
            simp [cacheImage, hc]
          obtain ⟨hnd, hfresh⟩ := ih (store ++ [imageUrlToHash u])
          simp only [downloadAndCacheImages, h, hd, if_pos, hci, Option.toList_some,
            List.singleton_append]
          constructor
          · refine List.Nodup.cons ?_ hnd
            intro hmem
            exact hfresh _ hmem (by simp)
          · intro f hf
            rcases List.mem_cons.mp hf with rfl | hf'
            · exact hc
            · intro hfs
              exact hfresh f hf' (by simp [hfs])
      · have := ih store
        simp only [downloadAndCacheImages, h, hd]
        rw [if_neg (by simp [hd])]
        simpa using this

/-! ## Lemmas: the sync orchestrator -/

/-- A stale (or absent) cache with a successful fetch runs the full sync
path; with no store error the body commits and returns the fetched
snapshot. -/
theorem syncAlbumBody_stale_ok (cached : Option AlbumData) (now fetchTime : Int)
    (m : AlbumMetadata) (ps : List AlbumImage) (download : String → Bool)
    (store : List String) (hstale : isAlbumCacheStale cached now = true) :
    syncAlbumBody cached now fetchTime (some (m, ps)) download none store =
      .ok { result := some { metadata := m, photos := ps, lastSynced := fetchTime },
            committed := some { metadata := m, photos := ps, lastSynced := fetchTime },
            store := (if (determineImagesToDownload ps
                ((cached.map (fun d => d.photos)).getD []) store).length > 0 then
                downloadAndCacheImages download store (determineImagesToDownload ps
                  ((cached.map (fun d => d.photos)).getD []) store)
              else { store := store, fetched := [], written := [] }).store,
            fetchedUrls := (if (determineImagesToDownload ps
                ((cached.map (fun d => d.photos)).getD []) store).length > 0 then
                downloadAndCacheImages download store (determineImagesToDownload ps
                  ((cached.map (fun d => d.photos)).getD []) store)
              else { store := store, fetched := [], written := [] }).fetched } := by
  rw [syncAlbumBody]
  simp [hstale, fetchAlbumFromiCloud]

/-- A body that completes normally is returned as-is by the top-level
`try`/`catch`. -/
theorem syncAlbumWithCache_of_ok (cached : Option AlbumData) (now fetchTime : Int)
    (resp : Option (AlbumMetadata × List AlbumImage)) (download : String → Bool)
    (saveErr : Option StoreError) (store : List String) (r : SyncResult)
    (h : syncAlbumBody cached now fetchTime resp download saveErr store = .ok r) :
    syncAlbumWithCache cached now fetchTime resp download saveErr store = r := by
  rw [syncAlbumWithCache, h]

/-- With a stale cache, a successful fetch and a store error at the
metadata save, the body rethrows the store error. -/
theorem syncAlbumBody_stale_saveErr (cached : Option AlbumData) (now fetchTime : Int)
    (m : AlbumMetadata) (ps : List AlbumImage) (download : String → Bool)
    (e : StoreError) (store : List String)
    (hstale : isAlbumCacheStale cached now = true) :
    syncAlbumBody cached now fetchTime (some (m, ps)) download (some e) store =
      .error e := by
  rw [syncAlbumBody]
  simp [hstale, fetchAlbumFromiCloud]

/-! ## Lemmas: digest shape -/

/-- One compression round always yields the 8 working words. -/
theorem sha2Round_length (st : List Nat) (kw : Nat × Nat) :
    (sha2Round st kw).length = 8 := rfl

/-- Folding compression rounds preserves an 8-word state. -/
theorem foldl_sha2Round_length :
    ∀ (l : List (Nat × Nat)) (st : List Nat), st.length = 8 →
      (l.foldl sha2Round st).length = 8
  | [], _, h => h
  | p :: rest, st, _ =>
    foldl_sha2Round_length rest (sha2Round st p) (sha2Round_length st p)

/-- Compressing one block preserves an 8-word hash value. -/
theorem sha2Compress_length (hs block : List Nat) (h : hs.length = 8) :
    (sha2Compress hs block).length = 8 := by
  rw [sha2Compress]
  rw [List.length_zipWith, foldl_sha2Round_length _ _ h, h]
  rfl

/-- Folding block compressions preserves an 8-word hash value. -/
theorem foldl_sha2Compress_length :
    ∀ (blocks : List (List Nat)) (hs : List Nat), hs.length = 8 →
      (blocks.foldl sha2Compress hs).length = 8
  | [], _, h => h
  | b :: rest, hs, h =>
    foldl_sha2Compress_length rest _ (sha2Compress_length hs b h)

/-- A SHA-256 digest is 8 words, whatever the message. -/
theorem sha256_length (msg : List Nat) : (sha256 msg).length = 8 :=
  foldl_sha2Compress_length _ _ rfl

/-- A word renders as 8 hex characters. -/
theorem wordToHex_length (w : Nat) : (wordToHex w).length = 8 := by
  rw [wordToHex, List.length_map, List.length_range]

/-- Each of the 16 nibble characters is in the class `[a-f0-9]`. -/
theorem isHexDigit_hexChar : ∀ m < 16, isHexDigit (hexChar m) = true := by decide

/-- Every character of a word rendering is in the class `[a-f0-9]`. -/
theorem wordToHex_hex (w : Nat) : ∀ c ∈ wordToHex w, isHexDigit c = true := by
  intro c hc
  rw [wordToHex, List.mem_map] at hc
  obtain ⟨i, _, rfl⟩ := hc
  exact isHexDigit_hexChar _ (Nat.mod_lt _ (by norm_num))

/-- Rendering a word list yields 8 characters per word. -/
theorem digestChars_length :
    ∀ ws : List Nat, ((ws.map wordToHex).flatten).length = 8 * ws.length
  | [] => rfl
  | w :: rest => by
    rw [List.map_cons, List.flatten_cons, List.length_append, wordToHex_length,
      digestChars_length rest, List.length_cons]
    ring

/-- Every character of a rendered word list is in the class `[a-f0-9]`. -/
theorem digestChars_hex (ws : List Nat) :
    ((ws.map wordToHex).flatten).all isHexDigit = true := by
  rw [List.all_eq_true]
  intro c hc
  rw [List.mem_flatten] at hc
  obtain ⟨l, hl, hcl⟩ := hc
  rw [List.mem_map] at hl
  obtain ⟨w, _, rfl⟩ := hl
  exact wordToHex_hex w c hcl

/-- The hex digest of any string is exactly 64 characters. -/
theorem sha256Hex_length (s : String) : (sha256Hex s).data.length = 64 := by
  show ((( sha256 (utf8Bytes s)).map wordToHex).flatten).length = 64
  rw [digestChars_length, sha256_length]

/-- The hex digest of any string consists of `[a-f0-9]` characters only. -/
theorem sha256Hex_hex (s : String) : (sha256Hex s).data.all isHexDigit = true :=
  digestChars_hex _

/-! ## Concrete fixtures for witnesses and counterexamples -/

/-- A minimal album metadata record. -/
def wm : AlbumMetadata :=
  { streamName := "Album", userFirstName := "", userLastName := "",
    streamCtag := "", itemsReturned := 10 }

/-- A photo whose id and locator are the given string. -/
def wimg (s : String) : AlbumImage := { id := s, url := s, derivatives := [] }

/-- A 10-item remote listing (the spec's partial-failure scenario). -/
def wps : List AlbumImage :=
  [wimg "1", wimg "2", wimg "3", wimg "4", wimg "5",
   wimg "6", wimg "7", wimg "8", wimg "9", wimg "10"]

/-- A download oracle on which items 3 and 7 always fail. -/
def wdl : String → Bool := fun u => !(u == "3" || u == "7")

/-- Two listing entries with the same locator `"u"`. -/
def dupA : AlbumImage := { id := "a", url := "u", derivatives := [] }

/-- The second entry with locator `"u"`. -/
def dupB : AlbumImage := { id := "b", url := "u", derivatives := [] }

/-! ## The claims -/

/-- Claim C1: when the remote fetch succeeds in a stale-or-missing-cache
cycle and the metadata save does not fail, `syncAlbumWithCache` returns and
commits the snapshot holding the full remote item list with `lastSynced`
equal to the fetch time, for every download oracle (no number of per-item
download failures changes this); and a subsequent delta resolution of the
same listing against that committed snapshot selects exactly the items
whose blobs are missing from the post-sync store, not the whole list. -/
theorem syncAlbumWithCache_partialFailureCommit (cached : Option AlbumData)
    (now fetchTime : Int) (m : AlbumMetadata) (ps : List AlbumImage)
    (download : String → Bool) (store : List String)
    (hstale : isAlbumCacheStale cached now = true) :
    (syncAlbumWithCache cached now fetchTime (some (m, ps)) download none store).result =
      some { metadata := m, photos := ps, lastSynced := fetchTime } ∧
    (syncAlbumWithCache cached now fetchTime (some (m, ps)) download none store).committed =
      some { metadata := m, photos := ps, lastSynced := fetchTime } ∧
    determineImagesToDownload ps ps
        (syncAlbumWithCache cached now fetchTime (some (m, ps)) download none store).store =
      ps.filter (fun p => !(imageExists
        (syncAlbumWithCache cached now fetchTime (some (m, ps)) download none store).store
        (imageUrlToHash p.url))) := by
  have hb := syncAlbumBody_stale_ok cached now fetchTime m ps download store hstale
  have hsync := syncAlbumWithCache_of_ok cached now fetchTime (some (m, ps))
    download none store _ hb
  exact ⟨by rw [hsync], by rw [hsync], determineImagesToDownload_self ps _⟩

set_option maxRecDepth 1000000 in
/-- Witness for C1, the spec's own scenario: 10 remote items, first sync
(no prior snapshot), downloads for items 3 and 7 always failing. The full
10-item snapshot is still returned and committed, 8 blobs are on disk, and
the next delta resolution returns exactly items 3 and 7. -/
theorem syncAlbumWithCache_partialFailureCommit_witness :
    isAlbumCacheStale none 0 = true ∧
    (syncAlbumWithCache none 0 0 (some (wm, wps)) wdl none []).result =
      some { metadata := wm, photos := wps, lastSynced := 0 } ∧
    (syncAlbumWithCache none 0 0 (some (wm, wps)) wdl none []).store.length = 8 ∧
    determineImagesToDownload wps wps
      (syncAlbumWithCache none 0 0 (some (wm, wps)) wdl none []).store =
      [wimg "3", wimg "7"] := by
  have h := syncAlbumWithCache_partialFailureCommit none 0 0 wm wps wdl [] rfl
  refine ⟨rfl, h.1, by decide, ?_⟩
  rw [h.2.2]
  decide

set_option maxRecDepth 1000000 in
/-- Claim C2 (code defect): enqueueing 20 items with no intervening load
completions starts all 20 loads at once — the zero-argument
`processImageLoadQueue()` call inside `queueImageLoad` decrements
`state.loadingCount` on every enqueue, so the `MAX_CONCURRENT_LOADS = 4`
budget never binds and the in-flight count reaches 20. -/
theorem loader_concurrency_budget_violated :
    (runLoader ((List.range 20).map LoaderEvent.create)).inFlight = List.range 20 ∧
    MAX_CONCURRENT_LOADS <
      (runLoader ((List.range 20).map LoaderEvent.create)).inFlight.length := by
  constructor <;> decide

/-- Claim C3: the delta resolver returns exactly the remote items whose
locator is absent from the cached items' locators or whose blob (the file
named by the locator's hash) is missing from the store; with an empty
cached list every remote item is returned. -/
theorem determineImagesToDownload_spec (newPhotos cachedPhotos : List AlbumImage)
    (store : List String) :
    determineImagesToDownload newPhotos cachedPhotos store =
      newPhotos.filter (fun p =>
        !(decide (p.url ∈ cachedPhotos.map (fun q => q.url))) ||
        !(imageExists store (imageUrlToHash p.url))) ∧
    determineImagesToDownload newPhotos [] store = newPhotos := by
  constructor
  · exact determineGo_eq_filter _ _ _
  · rw [determineImagesToDownload, determineGo_eq_filter]
    simp

/-- Claim C4 (counterexample): a sync cycle whose metadata save hits a
disk-full store error returns exactly the same record as a cycle with no
cached data and a failed remote fetch — the store error is caught by
`syncAlbumWithCache`'s top-level handler and surfaced as the `null`
no-data result, neither propagated to the caller nor distinct from it. -/
theorem syncAlbumWithCache_storeError_counterexample :
    syncAlbumWithCache none 0 0 (some (wm, [])) (fun _ => true) (some .diskFull) [] =
      syncAlbumWithCache none 0 0 none (fun _ => true) none [] ∧
    (syncAlbumWithCache none 0 0 (some (wm, []))
      (fun _ => true) (some .diskFull) []).result = none := by
  constructor <;> rfl

/-- Claim C4 (amended): a store error at the metadata save is not retried
and propagates uncaught out of the sync body (out of `saveAlbumMetadata`),
but `syncAlbumWithCache`'s own top-level catch swallows it and returns the
`null` result — the same value as "no data available". -/
theorem syncAlbumWithCache_storeError_swallowed (cached : Option AlbumData)
    (now fetchTime : Int) (m : AlbumMetadata) (ps : List AlbumImage)
    (download : String → Bool) (e : StoreError) (store : List String)
    (hstale : isAlbumCacheStale cached now = true) :
    syncAlbumBody cached now fetchTime (some (m, ps)) download (some e) store =
      .error e ∧
    (syncAlbumWithCache cached now fetchTime (some (m, ps)) download
      (some e) store).result = none := by
  have hb := syncAlbumBody_stale_saveErr cached now fetchTime m ps download e store hstale
  refine ⟨hb, ?_⟩
  rw [syncAlbumWithCache, hb]

/-- Witness for the amended C4: first sync of an empty album with a
disk-full error at the save. -/
theorem syncAlbumWithCache_storeError_swallowed_witness :
    isAlbumCacheStale none 0 = true ∧
    syncAlbumBody none 0 0 (some (wm, [])) (fun _ => true) (some .diskFull) [] =
      .error .diskFull ∧
    (syncAlbumWithCache none 0 0 (some (wm, []))
      (fun _ => true) (some .diskFull) []).result = none := by
  have h := syncAlbumWithCache_storeError_swallowed none 0 0 wm []
    (fun _ => true) .diskFull [] rfl
  exact ⟨rfl, h.1, h.2⟩

set_option maxRecDepth 1000000 in
/-- Claim C5 (code defect): after index 0 fails twice in a row (original
attempt plus the one retry) it is marked permanently failed and its element
removed — but the next `preloadNearbyImages` pass re-creates the element
(`getOrCreateSlideElement` never consults `state.failedImages`), queues and
starts a third load for it, and leaves it in the rendered set. -/
theorem failed_image_requeued_and_rerendered :
    (runLoader [.create 0, .failure 0, .failure 0, .preload 0 1]).failedImages = [0] ∧
    0 ∈ (runLoader [.create 0, .failure 0, .failure 0, .preload 0 1]).dom ∧
    (runLoader [.create 0, .failure 0, .failure 0, .preload 0 1]).inFlight = [0] := by
  refine ⟨by decide, by decide, by decide⟩

/-- Claim C6 (counterexample): at exactly the threshold age — `lastSynced`
1440 minutes before `now`, threshold 1440 — the cache is reported FRESH
(`false`), not STALE as the claim asserts of the boundary. -/
theorem isAlbumCacheStale_boundary_counterexample :
    isAlbumCacheStale (some { metadata := wm, photos := [], lastSynced := 0 })
      (1440 * 60000) 1440 = false := by
  rw [isAlbumCacheStale]
  rw [decide_eq_false_iff_not]
  norm_num

/-- Claim C6 (amended): for a snapshot aged exactly `Tmin` minutes,
`isAlbumCacheStale` returns STALE iff `Tmin` strictly exceeds the threshold
— the boundary `Tmin = threshold` is FRESH — and a missing snapshot is
always STALE. -/
theorem isAlbumCacheStale_spec (meta : AlbumMetadata) (photos : List AlbumImage)
    (now Tmin threshold : Int) :
    isAlbumCacheStale
        (some { metadata := meta, photos := photos, lastSynced := now - Tmin * 60000 })
        now (threshold : ℚ) =
      decide (Tmin > threshold) ∧
    isAlbumCacheStale none now (threshold : ℚ) = true := by
  refine ⟨?_, rfl⟩
  show decide ((((now - (now - Tmin * 60000) : ℤ) : ℚ)) / (1000 * 60) >
    (threshold : ℚ)) = decide (Tmin > threshold)
  have h0 : (now - (now - Tmin * 60000) : ℤ) = Tmin * 60000 := by ring
  have h1 : ((now - (now - Tmin * 60000) : ℤ) : ℚ) / (1000 * 60) = (Tmin : ℚ) := by
    rw [h0]
    push_cast
    field_simp
    norm_num
  rw [h1, decide_eq_decide]
  constructor <;> intro h <;> exact_mod_cast h

/-- Claim C7: whenever the remote fetch fails, the sync body completes
normally (never raises) with the previously cached snapshot unchanged as
its result — which is `none`, the explicit no-data result, exactly when no
prior snapshot exists — and an untouched store. -/
theorem syncAlbumWithCache_fetch_failure_fallback (cached : Option AlbumData)
    (now fetchTime : Int) (download : String → Bool)
    (saveErr : Option StoreError) (store : List String) :
    syncAlbumBody cached now fetchTime none download saveErr store =
      .ok { result := cached, committed := none, store := store, fetchedUrls := [] } ∧
    syncAlbumWithCache cached now fetchTime none download saveErr store =
      { result := cached, committed := none, store := store, fetchedUrls := [] } := by
  have hb : syncAlbumBody cached now fetchTime none download saveErr store =
      .ok { result := cached, committed := none, store := store, fetchedUrls := [] } := by
    rw [syncAlbumBody]
    cases h : (!isAlbumCacheStale cached now && cached.isSome) <;> simp [h, fetchAlbumFromiCloud]
  refine ⟨hb, ?_⟩
  rw [syncAlbumWithCache, hb]

set_option maxRecDepth 1000000 in
/-- Claim C8 (counterexample): a remote listing carrying the same locator
"u" twice (against an empty cache and store) resolves both occurrences into
the download list, and the download loop performs the binary fetch twice —
the blob is not downloaded only once per cycle. The disk write does happen
only once. -/
theorem duplicate_locator_downloaded_twice :
    determineImagesToDownload [dupA, dupB] [] [] = [dupA, dupB] ∧
    (downloadAndCacheImages (fun _ => true) [] [dupA, dupB]).fetched = ["u", "u"] ∧
    (downloadAndCacheImages (fun _ => true) [] [dupA, dupB]).written =
      [imageUrlToHash "u"] := by
  refine ⟨by decide, by decide, by decide⟩

/-- Claim C8 (amended): duplicate locators resolve to the same hash-derived
filename and the blob file is written to the store at most once per cycle
(`cacheImage` skips files already present, so the written filenames are
distinct and all fresh), but the binary download itself is attempted once
per occurrence in the download list. -/
theorem downloadAndCacheImages_dedup (download : String → Bool)
    (store : List String) (images : List AlbumImage) :
    (downloadAndCacheImages download store images).written.Nodup ∧
    (∀ f ∈ (downloadAndCacheImages download store images).written, f ∉ store) ∧
    (downloadAndCacheImages download store images).fetched =
      images.filterMap selectBestImageUrl := by
  obtain ⟨h1, h2⟩ := downloadAndCacheImages_written_fresh download images store
  exact ⟨h1, h2, downloadAndCacheImages_fetched download images store⟩

/-- Claim C9: for every URL, `imageUrlToHash` yields the 64-character
lowercase-hex digest followed by `.jpg`, and therefore passes
`isValidImageFile`, the check gating the image-serving endpoint. -/
theorem imageUrlToHash_isValidImageFile (url : String) :
    imageUrlToHash url = sha256Hex url ++ ".jpg" ∧
    (sha256Hex url).data.length = 64 ∧
    (sha256Hex url).data.all isHexDigit = true ∧
    isValidImageFile (imageUrlToHash url) = true := by
  refine ⟨rfl, sha256Hex_length url, sha256Hex_hex url, ?_⟩
  have hdata : (imageUrlToHash url).data =
      (sha256Hex url).data ++ ['.', 'j', 'p', 'g'] := rfl
  rw [isValidImageFile]
  rw [hdata]
  rw [List.take_left' (sha256Hex_length url), List.drop_left' (sha256Hex_length url)]
  simp [List.length_append, sha256Hex_length url, sha256Hex_hex url]

/-- Claim C10: for every image list and every derived seed,
`shuffleImages` produces a permutation of its input (equal as multisets,
hence nothing lost, duplicated or created and the length unchanged), and an
empty or single-element list is left as-is. -/
theorem shuffleImages_permutes (seed : Nat) (l : List α) :
    (shuffleImages seed l).Perm l ∧
    (shuffleImages seed l).length = l.length ∧
    (l.length ≤ 1 → shuffleImages seed l = l) := by
  refine ⟨shuffleGo_perm _ l seed, (shuffleGo_perm _ l seed).length_eq, ?_⟩
  intro h
  have h0 : l.length - 1 = 0 := by omega
  rw [shuffleImages, h0]
  rfl

/-- Witness for C10: a concrete 10-element shuffle is a permutation, and a
singleton is untouched. -/
theorem shuffleImages_permutes_witness :
    (shuffleImages 12345 [1, 2, 3, 4, 5, 6, 7, 8, 9, 10]).Perm
      [1, 2, 3, 4, 5, 6, 7, 8, 9, 10] ∧
    ([42] : List Nat).length ≤ 1 ∧
    shuffleImages 7 [42] = [42] := by
  exact ⟨(shuffleImages_permutes 12345 _).1, by decide,
    (shuffleImages_permutes 7 [42]).2.2 (by decide)⟩

end Pildiraam
